import Mathlib

/-!
Verification of the Barnes-Hut force-layout engine in
`src/native/rust-physics/src/lib.rs` against its natural-language
specification.

The Rust `f64` arithmetic is embedded as exact rational arithmetic (`ℚ`);
the one transcendental operation, `f64::sqrt`, is passed as an explicit
function parameter `s : ℚ → ℚ` so that theorems can either hold for every
square-root stand-in or pin it at the finitely many values a concrete run
reaches.  A second, deliberately partial model (`FP`, at the end of the
definitions) tracks IEEE non-finiteness (`0.0 / 0.0 = NaN`) for the
zero-mass safety claim, which the idealised rational model cannot express.
-/

namespace GlyphPhysics

/-- 3-component force / position vector, mirroring the `(f64, f64, f64)`
tuples used by the Rust code. -/
abbrev V3 := ℚ × ℚ × ℚ

def v3zero : V3 := (0, 0, 0)

def v3add (a b : V3) : V3 := (a.1 + b.1, a.2.1 + b.2.1, a.2.2 + b.2.2)

def v3sub (a b : V3) : V3 := (a.1 - b.1, a.2.1 - b.2.1, a.2.2 - b.2.2)

def v3neg (a : V3) : V3 := (-a.1, -a.2.1, -a.2.2)

def v3scale (c : ℚ) (a : V3) : V3 := (c * a.1, c * a.2.1, c * a.2.2)

/-- `struct Node` (lib.rs 6-16): identity, position, velocity, mass. -/
structure Node where
  id : String
  x : ℚ
  y : ℚ
  z : ℚ
  vx : ℚ
  vy : ℚ
  vz : ℚ
  mass : ℚ
deriving DecidableEq

/-- `struct Edge` (lib.rs 19-24). -/
structure Edge where
  source : String
  target : String
  weight : ℚ
deriving DecidableEq

/-- `struct BoundingBox` (lib.rs 35-43). -/
structure BoundingBox where
  min_x : ℚ
  min_y : ℚ
  min_z : ℚ
  max_x : ℚ
  max_y : ℚ
  max_z : ℚ
deriving DecidableEq

/-- `BoundingBox::contains` (lib.rs 46-50): inclusive on all six planes. -/
def BoundingBox.contains (b : BoundingBox) (x y z : ℚ) : Bool :=
  decide (x ≥ b.min_x) && decide (x ≤ b.max_x)
    && decide (y ≥ b.min_y) && decide (y ≤ b.max_y)
    && decide (z ≥ b.min_z) && decide (z ≤ b.max_z)

/-- `BoundingBox::width` (lib.rs 52-54). -/
def BoundingBox.width (b : BoundingBox) : ℚ := b.max_x - b.min_x

/-- The 8 octants produced by `BoundingBox::subdivide`, in the source's
array order (bottom layer first). -/
structure Octants where
  o0 : BoundingBox
  o1 : BoundingBox
  o2 : BoundingBox
  o3 : BoundingBox
  o4 : BoundingBox
  o5 : BoundingBox
  o6 : BoundingBox
  o7 : BoundingBox

/-- `BoundingBox::subdivide` (lib.rs 56-73): midpoint split on each axis. -/
def BoundingBox.subdivide (b : BoundingBox) : Octants :=
  let mid_x := (b.min_x + b.max_x) / 2
  let mid_y := (b.min_y + b.max_y) / 2
  let mid_z := (b.min_z + b.max_z) / 2
  { o0 := ⟨b.min_x, b.min_y, b.min_z, mid_x, mid_y, mid_z⟩
    o1 := ⟨mid_x, b.min_y, b.min_z, b.max_x, mid_y, mid_z⟩
    o2 := ⟨b.min_x, mid_y, b.min_z, mid_x, b.max_y, mid_z⟩
    o3 := ⟨mid_x, mid_y, b.min_z, b.max_x, b.max_y, mid_z⟩
    o4 := ⟨b.min_x, b.min_y, mid_z, mid_x, mid_y, b.max_z⟩
    o5 := ⟨mid_x, b.min_y, mid_z, b.max_x, mid_y, b.max_z⟩
    o6 := ⟨b.min_x, mid_y, mid_z, mid_x, b.max_y, b.max_z⟩
    o7 := ⟨mid_x, mid_y, mid_z, b.max_x, b.max_y, b.max_z⟩ }

/-- `struct QuadTreeNode` (lib.rs 27-33).  `children : Option<Box<[_; 8]>>`
becomes two constructors: `leaf` for `None` and `internal` for `Some`,
carrying the 8 children in the source's octant order. -/
inductive QuadTreeNode where
  | leaf (bounds : BoundingBox) (center_of_mass : V3) (total_mass : ℚ)
      (node_ids : List Nat)
  | internal (bounds : BoundingBox) (center_of_mass : V3) (total_mass : ℚ)
      (node_ids : List Nat)
      (c0 c1 c2 c3 c4 c5 c6 c7 : QuadTreeNode)
deriving DecidableEq

def QuadTreeNode.bounds : QuadTreeNode → BoundingBox
  | .leaf b _ _ _ => b
  | .internal b _ _ _ _ _ _ _ _ _ _ _ => b

def QuadTreeNode.center_of_mass : QuadTreeNode → V3
  | .leaf _ c _ _ => c
  | .internal _ c _ _ _ _ _ _ _ _ _ _ => c

def QuadTreeNode.total_mass : QuadTreeNode → ℚ
  | .leaf _ _ m _ => m
  | .internal _ _ m _ _ _ _ _ _ _ _ _ => m

def QuadTreeNode.node_ids : QuadTreeNode → List Nat
  | .leaf _ _ _ ids => ids
  | .internal _ _ _ ids _ _ _ _ _ _ _ _ => ids

/-- `QuadTreeNode::new` (lib.rs 77-85). -/
def QuadTreeNode.new (bounds : BoundingBox) : QuadTreeNode :=
  .leaf bounds (0, 0, 0) 0 []

/-- The unconditional center-of-mass / total-mass update at the top of
`QuadTreeNode::insert` (lib.rs 93-99).  Returns the new center of mass;
the new total mass is `total_mass + n.mass`. -/
def comUpdate (com : V3) (total_mass : ℚ) (n : Node) : V3 :=
  let new_mass := total_mass + n.mass
  ((com.1 * total_mass + n.x * n.mass) / new_mass,
   (com.2.1 * total_mass + n.y * n.mass) / new_mass,
   (com.2.2 * total_mass + n.z * n.mass) / new_mass)

/-- `insert` specialised to a freshly created child (`QuadTreeNode::new b`):
the fresh node has no children and no occupants, so the recursive call made
by the subdivision branch (lib.rs 127-134) reduces to this non-recursive
function.  `insert_on_new` below certifies the equivalence. -/
def insertNewChild (b : BoundingBox) (node_id : Nat) (n : Node) : QuadTreeNode :=
  if b.contains n.x n.y n.z then
    .leaf b (comUpdate (0, 0, 0) 0 n) (0 + n.mass) [node_id]
  else
    QuadTreeNode.new b

/-- The subdivision branch of `insert` (lib.rs 104-136): create the 8
children, run the (empty-bodied) re-insertion loop over the existing
occupants (lib.rs 122-124 — the loop does nothing), insert the arriving
body into the first child whose bounds contain it, and leave `node_ids`
as the taken-out empty vector plus the new id. -/
def subdivideInsert (b : BoundingBox) (com2 : V3) (total2 : ℚ)
    (node_id : Nat) (n : Node) : QuadTreeNode :=
  let o := b.subdivide
  if o.o0.contains n.x n.y n.z then
    .internal b com2 total2 [node_id] (insertNewChild o.o0 node_id n)
      (QuadTreeNode.new o.o1) (QuadTreeNode.new o.o2) (QuadTreeNode.new o.o3)
      (QuadTreeNode.new o.o4) (QuadTreeNode.new o.o5) (QuadTreeNode.new o.o6)
      (QuadTreeNode.new o.o7)
  else if o.o1.contains n.x n.y n.z then
    .internal b com2 total2 [node_id] (QuadTreeNode.new o.o0)
      (insertNewChild o.o1 node_id n)
      (QuadTreeNode.new o.o2) (QuadTreeNode.new o.o3) (QuadTreeNode.new o.o4)
      (QuadTreeNode.new o.o5) (QuadTreeNode.new o.o6) (QuadTreeNode.new o.o7)
  else if o.o2.contains n.x n.y n.z then
    .internal b com2 total2 [node_id] (QuadTreeNode.new o.o0)
      (QuadTreeNode.new o.o1) (insertNewChild o.o2 node_id n)
      (QuadTreeNode.new o.o3) (QuadTreeNode.new o.o4) (QuadTreeNode.new o.o5)
      (QuadTreeNode.new o.o6) (QuadTreeNode.new o.o7)
  else if o.o3.contains n.x n.y n.z then
    .internal b com2 total2 [node_id] (QuadTreeNode.new o.o0)
      (QuadTreeNode.new o.o1) (QuadTreeNode.new o.o2)
      (insertNewChild o.o3 node_id n)
      (QuadTreeNode.new o.o4) (QuadTreeNode.new o.o5) (QuadTreeNode.new o.o6)
      (QuadTreeNode.new o.o7)
  else if o.o4.contains n.x n.y n.z then
    .internal b com2 total2 [node_id] (QuadTreeNode.new o.o0)
      (QuadTreeNode.new o.o1) (QuadTreeNode.new o.o2) (QuadTreeNode.new o.o3)
      (insertNewChild o.o4 node_id n)
      (QuadTreeNode.new o.o5) (QuadTreeNode.new o.o6) (QuadTreeNode.new o.o7)
  else if o.o5.contains n.x n.y n.z then
    .internal b com2 total2 [node_id] (QuadTreeNode.new o.o0)
      (QuadTreeNode.new o.o1) (QuadTreeNode.new o.o2) (QuadTreeNode.new o.o3)
      (QuadTreeNode.new o.o4) (insertNewChild o.o5 node_id n)
      (QuadTreeNode.new o.o6) (QuadTreeNode.new o.o7)
  else if o.o6.contains n.x n.y n.z then
    .internal b com2 total2 [node_id] (QuadTreeNode.new o.o0)
      (QuadTreeNode.new o.o1) (QuadTreeNode.new o.o2) (QuadTreeNode.new o.o3)
      (QuadTreeNode.new o.o4) (QuadTreeNode.new o.o5)
      (insertNewChild o.o6 node_id n) (QuadTreeNode.new o.o7)
  else if o.o7.contains n.x n.y n.z then
    .internal b com2 total2 [node_id] (QuadTreeNode.new o.o0)
      (QuadTreeNode.new o.o1) (QuadTreeNode.new o.o2) (QuadTreeNode.new o.o3)
      (QuadTreeNode.new o.o4) (QuadTreeNode.new o.o5) (QuadTreeNode.new o.o6)
      (insertNewChild o.o7 node_id n)
  else
    .internal b com2 total2 [node_id] (QuadTreeNode.new o.o0)
      (QuadTreeNode.new o.o1) (QuadTreeNode.new o.o2) (QuadTreeNode.new o.o3)
      (QuadTreeNode.new o.o4) (QuadTreeNode.new o.o5) (QuadTreeNode.new o.o6)
      (QuadTreeNode.new o.o7)

/-- `QuadTreeNode::insert` (lib.rs 87-148).  Out-of-bounds bodies are
dropped (early return, line 88-90); otherwise the aggregates are updated
unconditionally, then: an empty leaf records the body; an occupied leaf
subdivides (`subdivideInsert`, in which the re-insertion loop over the
previous occupants is empty, as in the source); an internal node recurses
into the first child containing the body (the `break` in the source's
loop) and pushes the id onto its own `node_ids`. -/
def QuadTreeNode.insert (node_id : Nat) (n : Node) :
    QuadTreeNode → QuadTreeNode
  | .leaf b com total ids =>
    if b.contains n.x n.y n.z then
      let com2 := comUpdate com total n
      let total2 := total + n.mass
      if ids.isEmpty then
        .leaf b com2 total2 (ids ++ [node_id])
      else
        subdivideInsert b com2 total2 node_id n
    else
      .leaf b com total ids
  | .internal b com total ids c0 c1 c2 c3 c4 c5 c6 c7 =>
    if b.contains n.x n.y n.z then
      let com2 := comUpdate com total n
      let total2 := total + n.mass
      let ids2 := ids ++ [node_id]
      if c0.bounds.contains n.x n.y n.z then
        .internal b com2 total2 ids2
          (QuadTreeNode.insert node_id n c0) c1 c2 c3 c4 c5 c6 c7
      else if c1.bounds.contains n.x n.y n.z then
        .internal b com2 total2 ids2
          c0 (QuadTreeNode.insert node_id n c1) c2 c3 c4 c5 c6 c7
      else if c2.bounds.contains n.x n.y n.z then
        .internal b com2 total2 ids2
          c0 c1 (QuadTreeNode.insert node_id n c2) c3 c4 c5 c6 c7
      else if c3.bounds.contains n.x n.y n.z then
        .internal b com2 total2 ids2
          c0 c1 c2 (QuadTreeNode.insert node_id n c3) c4 c5 c6 c7
      else if c4.bounds.contains n.x n.y n.z then
        .internal b com2 total2 ids2
          c0 c1 c2 c3 (QuadTreeNode.insert node_id n c4) c5 c6 c7
      else if c5.bounds.contains n.x n.y n.z then
        .internal b com2 total2 ids2
          c0 c1 c2 c3 c4 (QuadTreeNode.insert node_id n c5) c6 c7
      else if c6.bounds.contains n.x n.y n.z then
        .internal b com2 total2 ids2
          c0 c1 c2 c3 c4 c5 (QuadTreeNode.insert node_id n c6) c7
      else if c7.bounds.contains n.x n.y n.z then
        .internal b com2 total2 ids2
          c0 c1 c2 c3 c4 c5 c6 (QuadTreeNode.insert node_id n c7)
      else
        .internal b com2 total2 ids2 c0 c1 c2 c3 c4 c5 c6 c7
    else
      .internal b com total ids c0 c1 c2 c3 c4 c5 c6 c7

/-- The single-pseudo-body contribution of `calculate_force`
(lib.rs 156-169): softened squared distance, inverse-square magnitude,
direction from the query point toward the center of mass. -/
def singleBody (s : ℚ → ℚ) (com : V3) (total_mass : ℚ) (n : Node) : V3 :=
  let dx := com.1 - n.x
  let dy := com.2.1 - n.y
  let dz := com.2.2 - n.z
  let dist_sq := dx * dx + dy * dy + dz * dz + 1
  let dist := s dist_sq
  let force := (n.mass * total_mass) / dist_sq
  ((dx / dist) * force, (dy / dist) * force, (dz / dist) * force)

/-- `QuadTreeNode::calculate_force` (lib.rs 151-183), parametrised by the
square-root function `s`.  Zero aggregated mass contributes zero; a leaf,
or an internal node passing the Barnes-Hut test `width / dist < θ`, is
treated as a single pseudo-body; otherwise the 8 children's contributions
are summed. -/
def QuadTreeNode.calculate_force (s : ℚ → ℚ) (n : Node) (theta : ℚ) :
    QuadTreeNode → V3
  | .leaf _ com total _ =>
    if total = 0 then v3zero else singleBody s com total n
  | .internal b com total _ c0 c1 c2 c3 c4 c5 c6 c7 =>
    if total = 0 then v3zero
    else
      let dx := com.1 - n.x
      let dy := com.2.1 - n.y
      let dz := com.2.2 - n.z
      let dist_sq := dx * dx + dy * dy + dz * dz + 1
      let dist := s dist_sq
      if b.width / dist < theta then
        singleBody s com total n
      else
        v3add (QuadTreeNode.calculate_force s n theta c0)
          (v3add (QuadTreeNode.calculate_force s n theta c1)
            (v3add (QuadTreeNode.calculate_force s n theta c2)
              (v3add (QuadTreeNode.calculate_force s n theta c3)
                (v3add (QuadTreeNode.calculate_force s n theta c4)
                  (v3add (QuadTreeNode.calculate_force s n theta c5)
                    (v3add (QuadTreeNode.calculate_force s n theta c6)
                      (QuadTreeNode.calculate_force s n theta c7)))))))

/-- All body ids recorded anywhere in a subtree. -/
def QuadTreeNode.subtreeIds : QuadTreeNode → List Nat
  | .leaf _ _ _ ids => ids
  | .internal _ _ _ ids c0 c1 c2 c3 c4 c5 c6 c7 =>
    ids ++ (c0.subtreeIds ++ (c1.subtreeIds ++ (c2.subtreeIds ++
      (c3.subtreeIds ++ (c4.subtreeIds ++ (c5.subtreeIds ++
        (c6.subtreeIds ++ c7.subtreeIds)))))))

/-- The body ids recorded anywhere below the children of a node (empty for
a leaf).  After a subdivision this is where every re-inserted occupant
must appear. -/
def QuadTreeNode.childrenIds : QuadTreeNode → List Nat
  | .leaf _ _ _ _ => []
  | .internal _ _ _ _ c0 c1 c2 c3 c4 c5 c6 c7 =>
    c0.subtreeIds ++ (c1.subtreeIds ++ (c2.subtreeIds ++ (c3.subtreeIds ++
      (c4.subtreeIds ++ (c5.subtreeIds ++ (c6.subtreeIds ++
        c7.subtreeIds))))))

/-- Whether the node has subdivided (`children.is_some()`). -/
def QuadTreeNode.isSubdivided : QuadTreeNode → Bool
  | .leaf _ _ _ _ => false
  | .internal _ _ _ _ _ _ _ _ _ _ _ _ => true

/-- `f64::min` folding with an `f64::INFINITY` initial accumulator
(lib.rs 245, 252-259): `none` plays the role of the infinite initial
value, which every real number replaces. -/
def minQ (acc : Option ℚ) (x : ℚ) : Option ℚ :=
  match acc with
  | none => some x
  | some v => some (min v x)

/-- `f64::max` folding from `f64::NEG_INFINITY`, dually to `minQ`. -/
def maxQ (acc : Option ℚ) (x : ℚ) : Option ℚ :=
  match acc with
  | none => some x
  | some v => some (max v x)

/-- The padded bounding volume computed at the top of `tick`
(lib.rs 245-270): componentwise min/max of all node positions, padded by
100 on every side.  `tick` only evaluates this on a non-empty node list,
on which each fold is `some`; the `getD 0` default is never reached
there. -/
def computeBounds (ns : List Node) : BoundingBox :=
  let padding : ℚ := 100
  { min_x := (ns.foldl (fun a n => minQ a n.x) none).getD 0 - padding
    min_y := (ns.foldl (fun a n => minQ a n.y) none).getD 0 - padding
    min_z := (ns.foldl (fun a n => minQ a n.z) none).getD 0 - padding
    max_x := (ns.foldl (fun a n => maxQ a n.x) none).getD 0 + padding
    max_y := (ns.foldl (fun a n => maxQ a n.y) none).getD 0 + padding
    max_z := (ns.foldl (fun a n => maxQ a n.z) none).getD 0 + padding }

/-- The tree-building loop of `tick` (lib.rs 272-275): insert every node,
paired with its index, into `t`. -/
def insertAll (t : QuadTreeNode) (ns : List Node) : QuadTreeNode :=
  ns.enum.foldl (fun acc p => QuadTreeNode.insert p.1 p.2 acc) t

/-- The fresh octree built by every tick (lib.rs 263-275). -/
def buildTree (ns : List Node) : QuadTreeNode :=
  insertAll (QuadTreeNode.new (computeBounds ns)) ns

/-- `struct PhysicsEngine` (lib.rs 188-196).  The `HashMap<String, usize>`
id→index map is represented extensionally, by its lookup function; `tick`
only ever calls `.get` on it, so only this function is observable. -/
structure EngineState where
  nodes : List Node
  edges : List Edge
  node_map : String → Option Nat
  repulsion_strength : ℚ
  attraction_strength : ℚ
  damping : ℚ
  theta : ℚ

/-- The id→index map built by `set_nodes` (lib.rs 216-219): one
`HashMap::insert` per node in order, so on duplicate ids the later index
overwrites the earlier one. -/
def buildMap (ns : List Node) : String → Option Nat :=
  fun id => ns.enum.foldl
    (fun acc p => if p.2.id = id then some p.1 else acc) none

/-- `PhysicsEngine::new` (lib.rs 200-211). -/
def PhysicsEngine.new : EngineState :=
  { nodes := []
    edges := []
    node_map := fun _ => none
    repulsion_strength := 1000
    attraction_strength := 1 / 100
    damping := 4 / 5
    theta := 1 / 2 }

/-- `PhysicsEngine::set_nodes` (lib.rs 213-222).  The wasm-boundary
deserialization is modelled by an `Except`-valued input: the `?` on
`from_value` fires before any field of `self` is touched, so an error
input returns the state unchanged together with the error. -/
def set_nodes (st : EngineState) (input : Except String (List Node)) :
    EngineState × Except String Unit :=
  match input with
  | .error e => (st, .error e)
  | .ok ns => ({ st with nodes := ns, node_map := buildMap ns }, .ok ())

/-- `PhysicsEngine::set_edges` (lib.rs 224-228), same error contract as
`set_nodes`. -/
def set_edges (st : EngineState) (input : Except String (List Edge)) :
    EngineState × Except String Unit :=
  match input with
  | .error e => (st, .error e)
  | .ok es => ({ st with edges := es }, .ok ())

/-- `PhysicsEngine::set_params` (lib.rs 230-236). -/
def set_params (st : EngineState) (repulsion attraction damping theta : ℚ) :
    EngineState :=
  { st with repulsion_strength := repulsion, attraction_strength := attraction,
            damping := damping, theta := theta }

/-- Placeholder node for the (unreachable when the id map is consistent
with the node list) out-of-range index lookups in the edge pass. -/
def dummyNode : Node := ⟨"", 0, 0, 0, 0, 0, 0, 0⟩

/-- The repulsion pass of `tick` (lib.rs 278-286): query the octree for
every node and scale by the repulsion strength. -/
def repulsionForces (s : ℚ → ℚ) (st : EngineState) (tree : QuadTreeNode) :
    List V3 :=
  st.nodes.map (fun n =>
    v3scale st.repulsion_strength (tree.calculate_force s n st.theta))

/-- The body of the edge loop of `tick` for one edge (lib.rs 289-312):
if both endpoint ids resolve, compute the spring force along the
displacement (length floored at 0.1), add it to the source's accumulator
and subtract it from the target's; otherwise leave the accumulators
untouched. -/
def applyEdge (s : ℚ → ℚ) (st : EngineState) (forces : List V3) (e : Edge) :
    List V3 :=
  match st.node_map e.source, st.node_map e.target with
  | some source_idx, some target_idx =>
    let source := st.nodes.getD source_idx dummyNode
    let target := st.nodes.getD target_idx dummyNode
    let dx := target.x - source.x
    let dy := target.y - source.y
    let dz := target.z - source.z
    let dist := max (s (dx * dx + dy * dy + dz * dz)) (1 / 10)
    let force := st.attraction_strength * dist * e.weight
    let f : V3 := ((dx / dist) * force, (dy / dist) * force, (dz / dist) * force)
    let forces1 := forces.set source_idx
      (v3add (forces.getD source_idx v3zero) f)
    forces1.set target_idx (v3sub (forces1.getD target_idx v3zero) f)
  | _, _ => forces

/-- The full edge loop of `tick` (lib.rs 289-313). -/
def attractionPass (s : ℚ → ℚ) (st : EngineState) (forces : List V3) :
    List V3 :=
  st.edges.foldl (applyEdge s st) forces

/-- The integration loop of `tick` (lib.rs 316-331): velocity gains
`force * deltaTime`, is damped unconditionally, and then advances the
position. -/
def integrate (st : EngineState) (forces : List V3) (delta_time : ℚ) :
    List Node :=
  List.zipWith (fun n f =>
    let vx := (n.vx + f.1 * delta_time) * st.damping
    let vy := (n.vy + f.2.1 * delta_time) * st.damping
    let vz := (n.vz + f.2.2 * delta_time) * st.damping
    { n with vx := vx, vy := vy, vz := vz,
             x := n.x + vx * delta_time,
             y := n.y + vy * delta_time,
             z := n.z + vz * delta_time })
    st.nodes forces

/-- `PhysicsEngine::tick` (lib.rs 239-334): early return on an empty node
set, otherwise rebuild the octree, accumulate repulsive then attractive
forces, and integrate.  The returned node list is the `nodes` field of
the resulting state, exactly what the source serializes back. -/
def tick (s : ℚ → ℚ) (st : EngineState) (delta_time : ℚ) : EngineState :=
  if st.nodes.isEmpty then st
  else
    let tree := buildTree st.nodes
    let forces := attractionPass s st (repulsionForces s st tree)
    { st with nodes := integrate st forces delta_time }

/-- Modelled from the spec (§8 accuracy property): the direct O(n²)
pairwise summation of softened inverse-square repulsive contributions
over all individual bodies, the reference point against which the θ = 0
tree query is compared. -/
def directForceSum (s : ℚ → ℚ) (ns : List Node) (q : Node) : V3 :=
  ns.foldl (fun acc m => v3add acc (singleBody s (m.x, m.y, m.z) m.mass q))
    v3zero

/-! ## IEEE non-finiteness model

The rational model above idealises `f64`: in it `0 / 0 = 0`, whereas IEEE
gives NaN.  To settle the zero-mass safety claim the aggregate fields are
re-modelled as `Option ℚ`, where `none` stands for a non-finite (`NaN` or
`±∞`) double and `some q` for a finite one.  The operations below are
faithful on the paths the insert code takes: a division by zero produces a
non-finite value (NaN for `0/0`, `±∞` otherwise), and every arithmetic
operation on a NaN operand — and on an `±∞` operand combined with the
finite values occurring here — is again non-finite. -/

/-- A double that is either finite (`some q`) or non-finite (`none`). -/
abbrev FP := Option ℚ

def FP.add : FP → FP → FP
  | some a, some b => some (a + b)
  | _, _ => none

def FP.mul : FP → FP → FP
  | some a, some b => some (a * b)
  | _, _ => none

def FP.div : FP → FP → FP
  | some a, some b => if b = 0 then none else some (a / b)
  | _, _ => none

/-- `QuadTreeNode` with IEEE-aware aggregate fields (positions stay
rational: the scenario only needs finite inputs). -/
inductive FPTree where
  | leaf (bounds : BoundingBox) (center_of_mass : FP × FP × FP)
      (total_mass : FP) (node_ids : List Nat)
  | internal (bounds : BoundingBox) (center_of_mass : FP × FP × FP)
      (total_mass : FP) (node_ids : List Nat)
      (c0 c1 c2 c3 c4 c5 c6 c7 : FPTree)
deriving DecidableEq

def FPTree.center_of_mass : FPTree → FP × FP × FP
  | .leaf _ c _ _ => c
  | .internal _ c _ _ _ _ _ _ _ _ _ _ => c

def FPTree.total_mass : FPTree → FP
  | .leaf _ _ m _ => m
  | .internal _ _ m _ _ _ _ _ _ _ _ _ => m

def FPTree.bounds : FPTree → BoundingBox
  | .leaf b _ _ _ => b
  | .internal b _ _ _ _ _ _ _ _ _ _ _ => b

/-- `QuadTreeNode::new` in the IEEE-aware model. -/
def FPTree.new (bounds : BoundingBox) : FPTree :=
  .leaf bounds (some 0, some 0, some 0) (some 0) []

/-- The center-of-mass update of `insert` (lib.rs 93-99) with IEEE-aware
arithmetic: `(com * total + pos * mass) / (total + mass)`. -/
def fpComUpdate (com : FP × FP × FP) (total_mass : FP) (n : Node) :
    (FP × FP × FP) × FP :=
  let m : FP := some n.mass
  let new_mass := FP.add total_mass m
  ((FP.div (FP.add (FP.mul com.1 total_mass) (FP.mul (some n.x) m)) new_mass,
    FP.div (FP.add (FP.mul com.2.1 total_mass) (FP.mul (some n.y) m)) new_mass,
    FP.div (FP.add (FP.mul com.2.2 total_mass) (FP.mul (some n.z) m)) new_mass),
   new_mass)

/-- `insert` into a freshly created child in the IEEE-aware model,
mirroring `insertNewChild`. -/
def fpInsertNewChild (b : BoundingBox) (node_id : Nat) (n : Node) : FPTree :=
  if b.contains n.x n.y n.z then
    .leaf b (fpComUpdate (some 0, some 0, some 0) (some 0) n).1
      (fpComUpdate (some 0, some 0, some 0) (some 0) n).2 [node_id]
  else
    FPTree.new b

/-- The subdivision branch of `insert` in the IEEE-aware model, mirroring
`subdivideInsert` (the re-insertion loop over existing occupants is empty
in the source and hence here too). -/
def fpSubdivideInsert (b : BoundingBox) (com2 : FP × FP × FP) (total2 : FP)
    (node_id : Nat) (n : Node) : FPTree :=
  let o := b.subdivide
  if o.o0.contains n.x n.y n.z then
    .internal b com2 total2 [node_id] (fpInsertNewChild o.o0 node_id n)
      (FPTree.new o.o1) (FPTree.new o.o2) (FPTree.new o.o3) (FPTree.new o.o4)
      (FPTree.new o.o5) (FPTree.new o.o6) (FPTree.new o.o7)
  else if o.o1.contains n.x n.y n.z then
    .internal b com2 total2 [node_id] (FPTree.new o.o0)
      (fpInsertNewChild o.o1 node_id n) (FPTree.new o.o2) (FPTree.new o.o3)
      (FPTree.new o.o4) (FPTree.new o.o5) (FPTree.new o.o6) (FPTree.new o.o7)
  else if o.o2.contains n.x n.y n.z then
    .internal b com2 total2 [node_id] (FPTree.new o.o0) (FPTree.new o.o1)
      (fpInsertNewChild o.o2 node_id n) (FPTree.new o.o3) (FPTree.new o.o4)
      (FPTree.new o.o5) (FPTree.new o.o6) (FPTree.new o.o7)
  else if o.o3.contains n.x n.y n.z then
    .internal b com2 total2 [node_id] (FPTree.new o.o0) (FPTree.new o.o1)
      (FPTree.new o.o2) (fpInsertNewChild o.o3 node_id n) (FPTree.new o.o4)
      (FPTree.new o.o5) (FPTree.new o.o6) (FPTree.new o.o7)
  else if o.o4.contains n.x n.y n.z then
    .internal b com2 total2 [node_id] (FPTree.new o.o0) (FPTree.new o.o1)
      (FPTree.new o.o2) (FPTree.new o.o3) (fpInsertNewChild o.o4 node_id n)
      (FPTree.new o.o5) (FPTree.new o.o6) (FPTree.new o.o7)
  else if o.o5.contains n.x n.y n.z then
    .internal b com2 total2 [node_id] (FPTree.new o.o0) (FPTree.new o.o1)
      (FPTree.new o.o2) (FPTree.new o.o3) (FPTree.new o.o4)
      (fpInsertNewChild o.o5 node_id n) (FPTree.new o.o6) (FPTree.new o.o7)
  else if o.o6.contains n.x n.y n.z then
    .internal b com2 total2 [node_id] (FPTree.new o.o0) (FPTree.new o.o1)
      (FPTree.new o.o2) (FPTree.new o.o3) (FPTree.new o.o4) (FPTree.new o.o5)
      (fpInsertNewChild o.o6 node_id n) (FPTree.new o.o7)
  else if o.o7.contains n.x n.y n.z then
    .internal b com2 total2 [node_id] (FPTree.new o.o0) (FPTree.new o.o1)
      (FPTree.new o.o2) (FPTree.new o.o3) (FPTree.new o.o4) (FPTree.new o.o5)
      (FPTree.new o.o6) (fpInsertNewChild o.o7 node_id n)
  else
    .internal b com2 total2 [node_id] (FPTree.new o.o0) (FPTree.new o.o1)
      (FPTree.new o.o2) (FPTree.new o.o3) (FPTree.new o.o4) (FPTree.new o.o5)
      (FPTree.new o.o6) (FPTree.new o.o7)

/-- `QuadTreeNode::insert` (lib.rs 87-148) in the IEEE-aware model, same
branch structure as `QuadTreeNode.insert`. -/
def FPTree.insert (node_id : Nat) (n : Node) : FPTree → FPTree
  | .leaf b com total ids =>
    if b.contains n.x n.y n.z then
      let upd := fpComUpdate com total n
      if ids.isEmpty then
        .leaf b upd.1 upd.2 (ids ++ [node_id])
      else
        fpSubdivideInsert b upd.1 upd.2 node_id n
    else
      .leaf b com total ids
  | .internal b com total ids c0 c1 c2 c3 c4 c5 c6 c7 =>
    if b.contains n.x n.y n.z then
      let upd := fpComUpdate com total n
      let ids2 := ids ++ [node_id]
      if c0.bounds.contains n.x n.y n.z then
        .internal b upd.1 upd.2 ids2
          (FPTree.insert node_id n c0) c1 c2 c3 c4 c5 c6 c7
      else if c1.bounds.contains n.x n.y n.z then
        .internal b upd.1 upd.2 ids2
          c0 (FPTree.insert node_id n c1) c2 c3 c4 c5 c6 c7
      else if c2.bounds.contains n.x n.y n.z then
        .internal b upd.1 upd.2 ids2
          c0 c1 (FPTree.insert node_id n c2) c3 c4 c5 c6 c7
      else if c3.bounds.contains n.x n.y n.z then
        .internal b upd.1 upd.2 ids2
          c0 c1 c2 (FPTree.insert node_id n c3) c4 c5 c6 c7
      else if c4.bounds.contains n.x n.y n.z then
        .internal b upd.1 upd.2 ids2
          c0 c1 c2 c3 (FPTree.insert node_id n c4) c5 c6 c7
      else if c5.bounds.contains n.x n.y n.z then
        .internal b upd.1 upd.2 ids2
          c0 c1 c2 c3 c4 (FPTree.insert node_id n c5) c6 c7
      else if c6.bounds.contains n.x n.y n.z then
        .internal b upd.1 upd.2 ids2
          c0 c1 c2 c3 c4 c5 (FPTree.insert node_id n c6) c7
      else if c7.bounds.contains n.x n.y n.z then
        .internal b upd.1 upd.2 ids2
          c0 c1 c2 c3 c4 c5 c6 (FPTree.insert node_id n c7)
      else
        .internal b upd.1 upd.2 ids2 c0 c1 c2 c3 c4 c5 c6 c7
    else
      .internal b com total ids c0 c1 c2 c3 c4 c5 c6 c7

/-- A concrete stand-in for `f64::sqrt` used to instantiate the
square-root parameter in witnesses: exact on the perfect squares the
scenarios reach (the softening constant makes most squared distances
perfect squares there) and a close rational approximation of the true
square root at the two remaining points (√26 ≈ 5.1, √101 ≈ 10.05).  The
theorems themselves are stated for every `s` agreeing with these finitely
many values, so they hold in particular for any faithful rounding of the
IEEE square root. -/
def demoSqrt (q : ℚ) : ℚ :=
  if q = 1 then 1
  else if q = 4 then 2
  else if q = 9 then 3
  else if q = 26 then 51 / 10
  else if q = 101 then 201 / 20
  else if q = 28 / 9 then 5 / 3
  else 0

/-! ## Concrete inputs used by the evidence theorems -/

def demoBox1 : BoundingBox := ⟨0, 0, 0, 8, 8, 8⟩

def bodyA1 : Node := ⟨"a", 1, 1, 1, 0, 0, 0, 1⟩

def bodyB1 : Node := ⟨"b", 7, 7, 7, 0, 0, 0, 1⟩

def zeroMassBody : Node := ⟨"z", 1, 2, 3, 0, 0, 0, 0⟩

def unitMassBody : Node := ⟨"u", 2, 2, 2, 0, 0, 0, 1⟩

/-! ## Sanity bridges between the inlined fresh-child insertion and the
source's recursive call -/

/-- Inserting into a freshly created node is exactly `insertNewChild`:
the inlining used by `subdivideInsert` agrees with the recursive call the
source makes on a brand-new child. -/
theorem insert_on_new (b : BoundingBox) (node_id : Nat) (n : Node) :
    QuadTreeNode.insert node_id n (QuadTreeNode.new b)
      = insertNewChild b node_id n := by
  by_cases h : b.contains n.x n.y n.z
  · simp [QuadTreeNode.new, QuadTreeNode.insert, insertNewChild, h]
  · simp [QuadTreeNode.new, QuadTreeNode.insert, insertNewChild, h]

/-- Same bridge in the IEEE-aware model. -/
theorem fp_insert_on_new (b : BoundingBox) (node_id : Nat) (n : Node) :
    FPTree.insert node_id n (FPTree.new b) = fpInsertNewChild b node_id n := by
  by_cases h : b.contains n.x n.y n.z
  · simp [FPTree.new, FPTree.insert, fpInsertNewChild, h]
  · simp [FPTree.new, FPTree.insert, fpInsertNewChild, h]

/-! ## C1 -/

/-- C1: the claim states that when a node holding one body receives a
second, the subdivision re-inserts every held body into the children.  In
the code (lib.rs 118-124) the re-insertion loop over the existing
occupants is empty, so the original occupant survives only in the parent's
aggregates.  Concretely: inserting body 0 at (1,1,1) and then body 1 at
(7,7,7) into a root over `[0,8]³` subdivides the root, yet the children
hold only body 1 — body 0 appears in no child — while the root's
aggregated mass still counts both bodies, so the drop is silent. -/
theorem subdivision_drops_existing_body :
    (QuadTreeNode.insert 1 bodyB1 (QuadTreeNode.insert 0 bodyA1
        (QuadTreeNode.new demoBox1))).isSubdivided = true
    ∧ (QuadTreeNode.insert 1 bodyB1 (QuadTreeNode.insert 0 bodyA1
        (QuadTreeNode.new demoBox1))).childrenIds = [1]
    ∧ (QuadTreeNode.insert 1 bodyB1 (QuadTreeNode.insert 0 bodyA1
        (QuadTreeNode.new demoBox1))).total_mass = 2 := by
  norm_num [demoBox1, bodyA1, bodyB1, QuadTreeNode.new, QuadTreeNode.insert,
    subdivideInsert, insertNewChild, BoundingBox.contains,
    BoundingBox.subdivide, comUpdate, QuadTreeNode.isSubdivided,
    QuadTreeNode.childrenIds, QuadTreeNode.subtreeIds, QuadTreeNode.bounds,
    QuadTreeNode.total_mass]

/-! ## C5 -/

/-- C5: the claim states that zero-mass nodes never make the engine
produce a non-finite aggregated mass or center-of-mass component.  In the
IEEE-aware model, inserting a zero-mass body into a fresh octree node
evaluates the center-of-mass update as `(0·0 + x·0) / (0 + 0) = 0/0`,
which is NaN: the aggregated center of mass becomes non-finite in all
three components.  Inserting a further unit-mass body leaves the center
of mass non-finite (NaN propagates through the running average) while the
aggregated mass becomes 1, so the zero-mass guard in `calculate_force`
no longer masks the NaN. -/
theorem zero_mass_insert_nonfinite_com :
    (FPTree.insert 0 zeroMassBody (FPTree.new demoBox1)).center_of_mass
        = (none, none, none)
    ∧ (FPTree.insert 0 zeroMassBody (FPTree.new demoBox1)).total_mass = some 0
    ∧ (FPTree.insert 1 unitMassBody (FPTree.insert 0 zeroMassBody
        (FPTree.new demoBox1))).center_of_mass = (none, none, none)
    ∧ (FPTree.insert 1 unitMassBody (FPTree.insert 0 zeroMassBody
        (FPTree.new demoBox1))).total_mass = some 1 := by
  norm_num [demoBox1, zeroMassBody, unitMassBody, FPTree.new, FPTree.insert,
    fpSubdivideInsert, fpInsertNewChild, BoundingBox.contains,
    BoundingBox.subdivide, fpComUpdate, FP.add, FP.mul, FP.div,
    FPTree.center_of_mass, FPTree.total_mass, FPTree.bounds]

/-! ## List helper lemmas for the accumulator updates -/

theorem getD_set_self {α : Type} (l : List α) (i : Nat) (a d : α)
    (h : i < l.length) : (l.set i a).getD i d = a := by
  induction l generalizing i with
  | nil => simp at h
  | cons x xs ih =>
    cases i with
    | zero => simp [List.set]
    | succ i =>
      simp only [List.set, List.getD_cons_succ]
      exact ih i (by simpa using h)

theorem getD_set_ne {α : Type} (l : List α) {i j : Nat} (hij : i ≠ j)
    (a d : α) : (l.set i a).getD j d = l.getD j d := by
  induction l generalizing i j with
  | nil => simp [List.set]
  | cons x xs ih =>
    cases i with
    | zero =>
      cases j with
      | zero => exact absurd rfl hij
      | succ j => simp [List.set]
    | succ i =>
      cases j with
      | zero => simp [List.set]
      | succ j =>
        simp only [List.set, List.getD_cons_succ]
        exact ih (fun hc => hij (by rw [hc]))

/-- The `forces[source] += f; forces[target] -= f` pattern: the net change
at the source index is exactly the negation of the net change at the
target index (including the self-loop case, where both changes cancel to
zero). -/
theorem set_chain_delta (l : List V3) (i j : Nat) (f : V3)
    (hi : i < l.length) (hj : j < l.length) :
    v3sub (((l.set i (v3add (l.getD i v3zero) f)).set j
          (v3sub ((l.set i (v3add (l.getD i v3zero) f)).getD j v3zero) f)).getD
        i v3zero)
      (l.getD i v3zero)
    = v3neg (v3sub (((l.set i (v3add (l.getD i v3zero) f)).set j
          (v3sub ((l.set i (v3add (l.getD i v3zero) f)).getD j v3zero) f)).getD
        j v3zero)
      (l.getD j v3zero)) := by
  by_cases hij : i = j
  · subst hij
    rw [getD_set_self _ _ _ _ (by simpa using hi),
        getD_set_self _ _ _ _ hi]
    simp only [v3add, v3sub, v3neg, Prod.mk.injEq]
    refine ⟨by ring, by ring, by ring⟩
  · rw [getD_set_ne _ (fun hc => hij hc.symm),
        getD_set_self _ _ _ _ hi,
        getD_set_self _ _ _ _ (by simpa using hj),
        getD_set_ne _ hij]
    simp only [v3add, v3sub, v3neg, Prod.mk.injEq]
    refine ⟨by ring, by ring, by ring⟩

/-! ## C6 -/

/-- C6: for every edge whose endpoint ids both resolve, the edge pass of
`tick` (lib.rs 289-312) changes the source node's force accumulator by
exactly the negation of what it changes the target node's accumulator by
(Newton's third law); this holds for every square-root stand-in, every
accumulator contents, and also degenerately for self-loops, where the two
changes cancel. -/
theorem edge_newtons_third_law (s : ℚ → ℚ) (st : EngineState)
    (forces : List V3) (e : Edge) (si ti : Nat)
    (hs : st.node_map e.source = some si)
    (ht : st.node_map e.target = some ti)
    (hsl : si < forces.length) (htl : ti < forces.length) :
    v3sub ((applyEdge s st forces e).getD si v3zero) (forces.getD si v3zero)
      = v3neg (v3sub ((applyEdge s st forces e).getD ti v3zero)
          (forces.getD ti v3zero)) := by
  simp only [applyEdge, hs, ht]
  exact set_chain_delta forces si ti _ hsl htl

def edgeAB : Edge := ⟨"a", "b", 1⟩

def engineEdges : EngineState :=
  { nodes := [bodyA1, bodyB1]
    edges := [edgeAB]
    node_map := buildMap [bodyA1, bodyB1]
    repulsion_strength := 1000
    attraction_strength := 1 / 100
    damping := 4 / 5
    theta := 1 / 2 }

def demoForces : List V3 := [(0, 0, 0), (0, 0, 0)]

/-- Witness for `edge_newtons_third_law` at a concrete two-node engine
with one resolved edge. -/
theorem edge_newtons_third_law_witness :
    v3sub ((applyEdge demoSqrt engineEdges demoForces edgeAB).getD 0 v3zero)
        (demoForces.getD 0 v3zero)
      = v3neg (v3sub ((applyEdge demoSqrt engineEdges demoForces edgeAB).getD
            1 v3zero)
          (demoForces.getD 1 v3zero)) :=
  edge_newtons_third_law demoSqrt engineEdges demoForces edgeAB 0 1
    (by simp [engineEdges, edgeAB, buildMap, bodyA1, bodyB1, List.enum_cons,
      List.enumFrom_cons, List.enumFrom_nil])
    (by simp [engineEdges, edgeAB, buildMap, bodyA1, bodyB1, List.enum_cons,
      List.enumFrom_cons, List.enumFrom_nil])
    (by simp [demoForces])
    (by simp [demoForces])

/-! ## C8 -/

/-- C8: an input to `setNodes` or `setEdges` that fails to deserialize
surfaces the error synchronously and leaves the whole engine state — node
set, edge set, and id→index map — unchanged: the `?` on `from_value`
(lib.rs 215, 226) returns before any field of the engine is touched. -/
theorem set_error_preserves_state (st : EngineState) (msg : String) :
    (set_nodes st (Except.error msg)).1 = st
    ∧ (set_nodes st (Except.error msg)).2 = Except.error msg
    ∧ (set_edges st (Except.error msg)).1 = st
    ∧ (set_edges st (Except.error msg)).2 = Except.error msg :=
  ⟨rfl, rfl, rfl, rfl⟩

/-! ## C9 -/

/-- C9: an edge whose source or target id is absent from the id→index map
contributes nothing: the edge pass returns the force accumulators
unchanged (the `if let (Some, Some)` guard, lib.rs 290-291, skips the
edge), and no error is raised — the pass is a total function. -/
theorem dangling_edge_zero_force (s : ℚ → ℚ) (st : EngineState)
    (forces : List V3) (e : Edge)
    (h : st.node_map e.source = none ∨ st.node_map e.target = none) :
    applyEdge s st forces e = forces := by
  rcases h with h | h
  · simp [applyEdge, h]
  · cases hs : st.node_map e.source <;> simp [applyEdge, h, hs]

def danglingEdge : Edge := ⟨"a", "ghost", 1⟩

/-- Witness for `dangling_edge_zero_force`: a two-node engine and an edge
naming the unknown id "ghost". -/
theorem dangling_edge_zero_force_witness :
    applyEdge demoSqrt engineEdges demoForces danglingEdge = demoForces :=
  dangling_edge_zero_force demoSqrt engineEdges demoForces danglingEdge
    (Or.inr (by simp [engineEdges, danglingEdge, buildMap, bodyA1, bodyB1,
      List.enum_cons, List.enumFrom_cons, List.enumFrom_nil]))

/-! ## C10 -/

/-- C10: `tick` is deterministic and the id→index hash map is observable
only through lookups: two engines with equal node sequences, equal edge
sequences, equal parameters, and extensionally equal lookup functions
(however their hash internals might differ) produce identical `tick`
results for every time step and square-root function. -/
theorem tick_deterministic (s : ℚ → ℚ) (st1 st2 : EngineState) (dt : ℚ)
    (hn : st1.nodes = st2.nodes) (he : st1.edges = st2.edges)
    (hm : ∀ id, st1.node_map id = st2.node_map id)
    (hr : st1.repulsion_strength = st2.repulsion_strength)
    (ha : st1.attraction_strength = st2.attraction_strength)
    (hd : st1.damping = st2.damping)
    (hth : st1.theta = st2.theta) :
    tick s st1 dt = tick s st2 dt := by
  have hst : st1 = st2 := by
    cases st1
    cases st2
    simp only at hn he hm hr ha hd hth
    subst hn
    subst he
    subst hr
    subst ha
    subst hd
    subst hth
    have : _ = _ := funext hm
    simp only at this
    subst this
    rfl
  rw [hst]

/-- A second engine value, syntactically distinct from `engineEdges`
(its lookup closure is an eta-expansion), used to witness
`tick_deterministic`. -/
def engineEdgesAlt : EngineState :=
  { nodes := [bodyA1, bodyB1]
    edges := [edgeAB]
    node_map := fun id => buildMap [bodyA1, bodyB1] id
    repulsion_strength := 1000
    attraction_strength := 1 / 100
    damping := 4 / 5
    theta := 1 / 2 }

/-- Witness for `tick_deterministic` at two concretely different engine
values with extensionally equal lookup maps. -/
theorem tick_deterministic_witness :
    tick demoSqrt engineEdges 1 = tick demoSqrt engineEdgesAlt 1 :=
  tick_deterministic demoSqrt engineEdges engineEdgesAlt 1 rfl rfl
    (fun _ => rfl) rfl rfl rfl rfl

/-! ## C7 -/

theorem length_applyEdge (s : ℚ → ℚ) (st : EngineState) (forces : List V3)
    (e : Edge) : (applyEdge s st forces e).length = forces.length := by
  unfold applyEdge
  cases hs : st.node_map e.source <;> cases ht : st.node_map e.target <;>
    simp [List.length_set]

theorem length_foldl_applyEdge (s : ℚ → ℚ) (st : EngineState) :
    ∀ (es : List Edge) (forces : List V3),
      (es.foldl (applyEdge s st) forces).length = forces.length
  | [], _ => rfl
  | e :: es, forces => by
    simp only [List.foldl_cons]
    rw [length_foldl_applyEdge s st es, length_applyEdge]

theorem length_attractionPass (s : ℚ → ℚ) (st : EngineState)
    (forces : List V3) :
    (attractionPass s st forces).length = forces.length :=
  length_foldl_applyEdge s st st.edges forces

theorem length_repulsionForces (s : ℚ → ℚ) (st : EngineState)
    (tree : QuadTreeNode) :
    (repulsionForces s st tree).length = st.nodes.length :=
  List.length_map _ _

theorem zipWith_damp (d : ℚ) :
    ∀ (ns : List Node) (fs : List V3), fs.length = ns.length →
      List.zipWith (fun n f =>
        let vx := (n.vx + f.1 * 0) * d
        let vy := (n.vy + f.2.1 * 0) * d
        let vz := (n.vz + f.2.2 * 0) * d
        { n with vx := vx, vy := vy, vz := vz,
                 x := n.x + vx * 0,
                 y := n.y + vy * 0,
                 z := n.z + vz * 0 }) ns fs
      = ns.map (fun n =>
          { n with vx := n.vx * d, vy := n.vy * d, vz := n.vz * d })
  | [], fs, _ => by simp
  | n :: ns, [], h => by simp at h
  | n :: ns, f :: fs, h => by
    simp only [List.zipWith_cons_cons, List.map_cons]
    refine congrArg₂ _ ?_ (zipWith_damp d ns fs (by simpa using h))
    simp

/-- C7: `tick(0)` leaves every node's position unchanged and multiplies
every node's velocity by the damping factor exactly once — damping is
applied unconditionally (lib.rs 322-325) even with a zero time step,
while both the `force * deltaTime` velocity gain and the
`velocity * deltaTime` position advance vanish. -/
theorem tick_zero_damps_velocity (s : ℚ → ℚ) (st : EngineState) :
    (tick s st 0).nodes = st.nodes.map (fun n =>
      { n with vx := n.vx * st.damping, vy := n.vy * st.damping,
               vz := n.vz * st.damping }) := by
  unfold tick
  cases hemp : st.nodes.isEmpty with
  | true =>
    have hnil : st.nodes = [] := List.isEmpty_iff.mp hemp
    simp [hnil]
  | false =>
    simp only [hemp, Bool.false_eq_true, if_false]
    have hlen : (attractionPass s st
        (repulsionForces s st (buildTree st.nodes))).length
        = st.nodes.length := by
      rw [length_attractionPass, length_repulsionForces]
    unfold integrate
    exact zipWith_damp st.damping st.nodes _ hlen

/-! ## C2 -/

theorem foldl_minQ_init (f : Node → ℚ) :
    ∀ (ns : List Node) (w : ℚ),
      ∃ v, ns.foldl (fun acc m => minQ acc (f m)) (some w) = some v ∧ v ≤ w
  | [], w => ⟨w, rfl, le_refl w⟩
  | m :: ms, w => by
    simp only [List.foldl_cons, minQ]
    obtain ⟨v, hv, hle⟩ := foldl_minQ_init f ms (min w (f m))
    exact ⟨v, hv, le_trans hle (min_le_left _ _)⟩

theorem foldl_minQ_le (f : Node → ℚ) :
    ∀ (ns : List Node) (a : Option ℚ) (n : Node), n ∈ ns →
      ∃ v, ns.foldl (fun acc m => minQ acc (f m)) a = some v ∧ v ≤ f n
  | [], _, n, hn => absurd hn (List.not_mem_nil n)
  | m :: ms, a, n, hn => by
    simp only [List.foldl_cons]
    rcases List.mem_cons.mp hn with heq | hmem
    · subst heq
      have hu : ∃ u, minQ a (f n) = some u ∧ u ≤ f n := by
        cases a with
        | none => exact ⟨f n, rfl, le_refl _⟩
        | some w => exact ⟨min w (f n), rfl, min_le_right _ _⟩
      obtain ⟨u, hu, hule⟩ := hu
      rw [hu]
      obtain ⟨v, hv, hvle⟩ := foldl_minQ_init f ms u
      exact ⟨v, hv, le_trans hvle hule⟩
    · exact foldl_minQ_le f ms (minQ a (f m)) n hmem

theorem foldl_maxQ_init (f : Node → ℚ) :
    ∀ (ns : List Node) (w : ℚ),
      ∃ v, ns.foldl (fun acc m => maxQ acc (f m)) (some w) = some v ∧ w ≤ v
  | [], w => ⟨w, rfl, le_refl w⟩
  | m :: ms, w => by
    simp only [List.foldl_cons, maxQ]
    obtain ⟨v, hv, hle⟩ := foldl_maxQ_init f ms (max w (f m))
    exact ⟨v, hv, le_trans (le_max_left _ _) hle⟩

theorem foldl_maxQ_le (f : Node → ℚ) :
    ∀ (ns : List Node) (a : Option ℚ) (n : Node), n ∈ ns →
      ∃ v, ns.foldl (fun acc m => maxQ acc (f m)) a = some v ∧ f n ≤ v
  | [], _, n, hn => absurd hn (List.not_mem_nil n)
  | m :: ms, a, n, hn => by
    simp only [List.foldl_cons]
    rcases List.mem_cons.mp hn with heq | hmem
    · subst heq
      have hu : ∃ u, maxQ a (f n) = some u ∧ f n ≤ u := by
        cases a with
        | none => exact ⟨f n, rfl, le_refl _⟩
        | some w => exact ⟨max w (f n), rfl, le_max_right _ _⟩
      obtain ⟨u, hu, hule⟩ := hu
      rw [hu]
      obtain ⟨v, hv, hvle⟩ := foldl_maxQ_init f ms u
      exact ⟨v, hv, le_trans hule hvle⟩
    · exact foldl_maxQ_le f ms (maxQ a (f m)) n hmem

/-- The 100-unit padding in `tick` (lib.rs 262-270) guarantees that every
node position is strictly inside the root volume, so no insertion is
rejected as out-of-bounds. -/
theorem computeBounds_contains (ns : List Node) (n : Node) (hn : n ∈ ns) :
    (computeBounds ns).contains n.x n.y n.z = true := by
  obtain ⟨vx, hvx, hx⟩ := foldl_minQ_le (fun m => m.x) ns none n hn
  obtain ⟨vy, hvy, hy⟩ := foldl_minQ_le (fun m => m.y) ns none n hn
  obtain ⟨vz, hvz, hz⟩ := foldl_minQ_le (fun m => m.z) ns none n hn
  obtain ⟨wx, hwx, hx2⟩ := foldl_maxQ_le (fun m => m.x) ns none n hn
  obtain ⟨wy, hwy, hy2⟩ := foldl_maxQ_le (fun m => m.y) ns none n hn
  obtain ⟨wz, hwz, hz2⟩ := foldl_maxQ_le (fun m => m.z) ns none n hn
  simp only [computeBounds, BoundingBox.contains, hvx, hvy, hvz, hwx, hwy,
    hwz, Option.getD_some, Bool.and_eq_true, decide_eq_true_eq, ge_iff_le]
  refine ⟨⟨⟨⟨⟨?_, ?_⟩, ?_⟩, ?_⟩, ?_⟩, ?_⟩ <;> linarith

theorem subdivideInsert_bounds (b : BoundingBox) (com2 : V3) (total2 : ℚ)
    (node_id : Nat) (n : Node) :
    (subdivideInsert b com2 total2 node_id n).bounds = b := by
  simp only [subdivideInsert]
  repeat' split
  all_goals rfl

theorem subdivideInsert_total_mass (b : BoundingBox) (com2 : V3)
    (total2 : ℚ) (node_id : Nat) (n : Node) :
    (subdivideInsert b com2 total2 node_id n).total_mass = total2 := by
  simp only [subdivideInsert]
  repeat' split
  all_goals rfl

theorem insert_bounds (node_id : Nat) (n : Node) (t : QuadTreeNode) :
    (QuadTreeNode.insert node_id n t).bounds = t.bounds := by
  cases t with
  | leaf b com total ids =>
    simp only [QuadTreeNode.insert]
    split
    · split
      · rfl
      · exact subdivideInsert_bounds _ _ _ _ _
    · rfl
  | internal b com total ids c0 c1 c2 c3 c4 c5 c6 c7 =>
    simp only [QuadTreeNode.insert]
    repeat' split
    all_goals rfl

/-- Given containment, `insert` adds the body's mass to the node's
aggregated total unconditionally, before any branch on the node's shape
(lib.rs 93-99). -/
theorem insert_total_mass (node_id : Nat) (n : Node) (t : QuadTreeNode)
    (h : t.bounds.contains n.x n.y n.z = true) :
    (QuadTreeNode.insert node_id n t).total_mass = t.total_mass + n.mass := by
  cases t with
  | leaf b com total ids =>
    simp only [QuadTreeNode.bounds] at h
    simp only [QuadTreeNode.insert, h, if_true]
    split
    · rfl
    · exact subdivideInsert_total_mass _ _ _ _ _
  | internal b com total ids c0 c1 c2 c3 c4 c5 c6 c7 =>
    simp only [QuadTreeNode.bounds] at h
    simp only [QuadTreeNode.insert, h, if_true]
    repeat' split
    all_goals rfl

theorem foldl_insert_total_mass :
    ∀ (ps : List (Nat × Node)) (t : QuadTreeNode),
      (∀ p ∈ ps, t.bounds.contains p.2.x p.2.y p.2.z = true) →
      (ps.foldl (fun acc p => QuadTreeNode.insert p.1 p.2 acc) t).total_mass
        = t.total_mass + (ps.map (fun p => p.2.mass)).sum
  | [], t, _ => by simp
  | p :: ps, t, hall => by
    simp only [List.foldl_cons, List.map_cons, List.sum_cons]
    have hrest : ∀ q ∈ ps,
        ((QuadTreeNode.insert p.1 p.2 t).bounds).contains q.2.x q.2.y q.2.z
          = true := by
      intro q hq
      rw [insert_bounds]
      exact hall q (List.mem_cons_of_mem p hq)
    rw [foldl_insert_total_mass ps (QuadTreeNode.insert p.1 p.2 t) hrest,
        insert_total_mass p.1 p.2 t (hall p (List.mem_cons_self p ps))]
    ring

/-- C2: mass conservation.  First conjunct: for every root volume and
every node list wholly contained in it, the root's aggregated total mass
after inserting all nodes into a fresh octree is exactly the sum of the
masses (exact, since the model's arithmetic is exact rational).  Second
conjunct: the tree `tick` actually builds satisfies this for every node
list whatsoever, because the 100-unit padding of `computeBounds`
guarantees the containment precondition. -/
theorem mass_conservation :
    (∀ (b : BoundingBox) (ns : List Node),
        (∀ n ∈ ns, b.contains n.x n.y n.z = true) →
        (insertAll (QuadTreeNode.new b) ns).total_mass
          = (ns.map Node.mass).sum)
    ∧ ∀ ns : List Node,
        (buildTree ns).total_mass = (ns.map Node.mass).sum := by
  have main : ∀ (b : BoundingBox) (ns : List Node),
      (∀ n ∈ ns, b.contains n.x n.y n.z = true) →
      (insertAll (QuadTreeNode.new b) ns).total_mass
        = (ns.map Node.mass).sum := by
    intro b ns hall
    have hc : ∀ p ∈ ns.enum,
        ((QuadTreeNode.new b).bounds).contains p.2.x p.2.y p.2.z = true := by
      intro p hp
      have hmem : p.2 ∈ ns := by
        have h2 := List.mem_map_of_mem Prod.snd hp
        rwa [List.enum_map_snd] at h2
      exact hall p.2 hmem
    unfold insertAll
    rw [foldl_insert_total_mass ns.enum (QuadTreeNode.new b) hc]
    have hsum : (ns.enum.map (fun p => p.2.mass)).sum
        = (ns.map Node.mass).sum := by
      have h1 : ns.enum.map (fun p => p.2.mass)
          = (ns.enum.map Prod.snd).map Node.mass := by
        rw [List.map_map]
        rfl
      rw [h1, List.enum_map_snd]
    rw [hsum]
    simp [QuadTreeNode.new, QuadTreeNode.total_mass]
  refine ⟨main, fun ns => ?_⟩
  unfold buildTree
  exact main (computeBounds ns) ns (fun n hn => computeBounds_contains ns n hn)

/-- Witness for `mass_conservation` at a concrete two-body list in a
concrete root volume. -/
theorem mass_conservation_witness :
    (insertAll (QuadTreeNode.new demoBox1) [bodyA1, bodyB1]).total_mass
      = 2 := by
  have hc : ∀ n ∈ [bodyA1, bodyB1],
      demoBox1.contains n.x n.y n.z = true := by
    intro n hn
    rcases List.mem_cons.mp hn with rfl | hn
    · norm_num [demoBox1, bodyA1, BoundingBox.contains]
    rcases List.mem_cons.mp hn with rfl | hn
    · norm_num [demoBox1, bodyB1, BoundingBox.contains]
    · exact absurd hn (List.not_mem_nil n)
  rw [mass_conservation.1 demoBox1 [bodyA1, bodyB1] hc]
  norm_num [bodyA1, bodyB1]

/-! ## C3 -/

def nodeA3 : Node := ⟨"a", 0, 0, 0, 0, 0, 0, 1⟩

def nodeB3 : Node := ⟨"b", 1, 1, 1, 0, 0, 0, 1⟩

def nodeC3 : Node := ⟨"c", 2, 2, 0, 0, 0, 0, 1⟩

def demoNodes3 : List Node := [nodeA3, nodeB3, nodeC3]

/-- C3: the claim states that with θ = 0 the tree query equals the direct
pairwise summation.  It fails on the code because the subdivision drops
existing occupants (lib.rs 122-124): querying the third body of a
three-body set recurses to the children (θ = 0 always recurses below an
internal node) and only ever sees the bodies present in the children, and
body "a" — the root's original occupant — is in none of them, so its
contribution is missing from the tree answer.  Stated for every
square-root function agreeing with the exact roots of the four softened
squared distances this configuration reaches (three of them perfect
squares; √(28/9) enters only a comparison against θ = 0 whose outcome is
the same for any value). -/
theorem theta_zero_differs_from_direct_sum (s : ℚ → ℚ)
    (h1 : s 1 = 1) (h4 : s 4 = 2) (h9 : s 9 = 3)
    (h28 : s (28 / 9) = 5 / 3) :
    QuadTreeNode.calculate_force s nodeC3 0 (buildTree demoNodes3)
      ≠ directForceSum s demoNodes3 nodeC3 := by
  norm_num [buildTree, computeBounds, insertAll, minQ, maxQ, List.enum_cons,
    List.enumFrom_cons, List.enumFrom_nil, QuadTreeNode.new,
    QuadTreeNode.insert, subdivideInsert, insertNewChild,
    BoundingBox.contains, BoundingBox.subdivide, BoundingBox.width, comUpdate,
    QuadTreeNode.calculate_force, singleBody, directForceSum, v3add, v3zero,
    demoNodes3, nodeA3, nodeB3, nodeC3, QuadTreeNode.bounds, h1, h4, h9, h28,
    Prod.ext_iff]

/-- Witness for `theta_zero_differs_from_direct_sum`, instantiating the
square-root parameter with the concrete stand-in `demoSqrt`. -/
theorem theta_zero_differs_from_direct_sum_witness :
    QuadTreeNode.calculate_force demoSqrt nodeC3 0 (buildTree demoNodes3)
      ≠ directForceSum demoSqrt demoNodes3 nodeC3 :=
  theta_zero_differs_from_direct_sum demoSqrt (by norm_num [demoSqrt])
    (by norm_num [demoSqrt]) (by norm_num [demoSqrt])
    (by norm_num [demoSqrt])

/-! ## C4 -/

def nodeA4 : Node := ⟨"A", 0, 0, 0, 0, 0, 0, 1⟩

def nodeB4 : Node := ⟨"B", 10, 0, 0, 0, 0, 0, 1⟩

/-- The engine of the spec's concrete scenario: nodes A and B, no edges,
repulsion 1000, attraction left at its default, damping 1, θ = 1/2. -/
def engineScenario : EngineState :=
  { nodes := [nodeA4, nodeB4]
    edges := []
    node_map := buildMap [nodeA4, nodeB4]
    repulsion_strength := 1000
    attraction_strength := 1 / 100
    damping := 1
    theta := 1 / 2 }

/-- C4: the claim expects vx(A) ≈ −9.9009 and vx(B) ≈ +9.9009 after one
tick.  The code instead gives vx(A) = 200000/20301 ≈ +9.85 — positive,
i.e. A accelerates toward B, because `calculate_force` orients the force
from the query point toward the center of mass (lib.rs 156, 166-168)
despite its "repulsive" comment — and vx(B) = 0 with B's position
unchanged, because the subdivision that B's insertion triggers never
re-inserts A into a child, so B sees only itself in the tree.  Stated for
every square-root function taking the correct rounded values at the three
softened squared distances reached (s 26 only decides the Barnes-Hut
test, 210/s(26) < 1/2, whose outcome is the same for any value near √26;
s 101 scales A's force; s 1 = 1 exactly). -/
theorem two_node_scenario_diverges (s : ℚ → ℚ)
    (h1 : s 1 = 1) (h26 : s 26 = 51 / 10) (h101 : s 101 = 201 / 20) :
    ((tick s engineScenario 1).nodes.getD 0 dummyNode).vx = 200000 / 20301
    ∧ ((tick s engineScenario 1).nodes.getD 1 dummyNode).vx = 0
    ∧ ((tick s engineScenario 1).nodes.getD 1 dummyNode).x = 10 := by
  norm_num [tick, buildTree, computeBounds, insertAll, attractionPass,
    repulsionForces, integrate, minQ, maxQ, List.enum_cons,
    List.enumFrom_cons, List.enumFrom_nil, QuadTreeNode.new,
    QuadTreeNode.insert, subdivideInsert, insertNewChild,
    BoundingBox.contains, BoundingBox.subdivide, BoundingBox.width, comUpdate,
    QuadTreeNode.calculate_force, singleBody, v3add, v3zero, v3scale,
    engineScenario, nodeA4, nodeB4, dummyNode, QuadTreeNode.bounds,
    h1, h26, h101]

/-- Witness for `two_node_scenario_diverges` at the concrete square-root
stand-in `demoSqrt`. -/
theorem two_node_scenario_diverges_witness :
    ((tick demoSqrt engineScenario 1).nodes.getD 0 dummyNode).vx
        = 200000 / 20301
    ∧ ((tick demoSqrt engineScenario 1).nodes.getD 1 dummyNode).vx = 0
    ∧ ((tick demoSqrt engineScenario 1).nodes.getD 1 dummyNode).x = 10 :=
  two_node_scenario_diverges demoSqrt (by norm_num [demoSqrt])
    (by norm_num [demoSqrt]) (by norm_num [demoSqrt])

end GlyphPhysics
